import Mathlib

/-!
Verification development for the Resume_Viewer repository.

The repository is a single React component (src/App.tsx).  The parts with
observable behaviour are:

* `handleDownloadReport` (lines 97-176): renders an `AnalysisReport` into a
  paginated jsPDF document and saves it as detailed-resume-analysis.pdf;
* its inner helper `addSection` (lines 126-146): heading plus bulleted,
  word-wrapped, paginated content lines;
* `analyzeResume` (lines 178-272): returns a fixed mock report.

Embedding conventions:

* jsPDF runs with its defaults (unit mm, format a4), so the page is
  595.28 pt x 841.89 pt scaled by 25.4/72, that is 15120112/72000 mm by
  21384006/72000 mm.  Every coordinate the renderer manipulates is an exact
  integer multiple of 1/72000 mm, so coordinates are embedded as integers in
  units of 1/72000 mm (`mmUnit`).  This keeps all arithmetic exact.
* the jsPDF document object is embedded as a running state (`RState`:
  current page, page count, current font size and colour, plus the mutable
  `yPos` cursor of `handleDownloadReport`) together with the list of text
  draw calls already issued (`TextDraw`); each primitive returns the new
  state and the draws it emits, sequenced exactly as in the source.
* `doc.splitTextToSize` is a jsPDF facility, not code of this repository;
  the renderer is therefore parametric in the wrapping function
  `wrap : String → List String` it denotes.  A concrete greedy word-wrap
  model of it, written from the specification, appears further down and is
  used for the word-wrap claim.
-/

/-! ## Data model (interface ResumeAnalysis, src/App.tsx lines 5-41) -/

structure ReadabilityAnalysis where
  score : ℤ
  feedback : List String
deriving Repr, DecidableEq

structure KeywordsAnalysis where
  score : ℤ
  found : List String
  missing : List String
deriving Repr, DecidableEq

structure ExperienceAnalysis where
  score : ℤ
  feedback : List String
deriving Repr, DecidableEq

structure EducationAnalysis where
  score : ℤ
  feedback : List String
deriving Repr, DecidableEq

structure DetailedAnalysis where
  readability : ReadabilityAnalysis
  keywords : KeywordsAnalysis
  experience : ExperienceAnalysis
  education : EducationAnalysis
deriving Repr, DecidableEq

structure Suggestions where
  critical : List String
  recommended : List String
  optional : List String
deriving Repr, DecidableEq

structure SemanticAnalysis where
  measurableAchievements : ℤ
  skillsEfficiencyRatio : ℤ
  impactVerbs : List String
  industryKeywords : List String
deriving Repr, DecidableEq

structure ResumeAnalysis where
  score : ℤ
  fileName : String
  filePreview : String
  detailedAnalysis : DetailedAnalysis
  softSkills : List String
  hardSkills : List String
  suggestions : Suggestions
  semanticAnalysis : SemanticAnalysis
deriving Repr, DecidableEq

/-! ## Page geometry (jsPDF defaults; src/App.tsx lines 100-104)

All lengths are integers in units of 1/72000 mm.  `mmUnit` is one
millimetre.  jsPDF a4 pages are 595.28 x 841.89 pt with k = 72/25.4, hence
exactly 15120112 and 21384006 in these units. -/

def mmUnit : ℤ := 72000

def lineHeight : ℤ := 10 * mmUnit

def margin : ℤ := 20 * mmUnit

def pageWidth : ℤ := 15120112

def pageHeight : ℤ := 21384006

/-- The width passed to splitTextToSize on line 135:
pageWidth - (margin * 2) - 10. -/
def printableWidth : ℤ := pageWidth - (margin * 2) - 10 * mmUnit

/-- One page holds floor((pageHeight - topMargin - bottomMargin)/lineHeight)
content lines according to the specification; top and bottom margin are both
`margin` in the source. -/
def pageCapacity : ℤ := (pageHeight - margin - margin) / lineHeight

/-! ## The jsPDF document state and the text primitives -/

/-- One call to doc.text: the string, its position, the page it lands on and
the styling current at the moment of the call.  `centered` records an
align center option. -/
structure TextDraw where
  text : String
  x : ℤ
  y : ℤ
  page : ℕ
  fontSize : ℤ
  textColor : ℕ × ℕ × ℕ
  centered : Bool
deriving Repr, DecidableEq

/-- The mutable state threaded through handleDownloadReport: the jsPDF
document (current page, number of pages, current font size and text colour)
and the yPos cursor. -/
structure RState where
  page : ℕ
  pages : ℕ
  fontSize : ℤ
  textColor : ℕ × ℕ × ℕ
  y : ℤ
deriving Repr, DecidableEq

/-- A doc.text call at position (x, y) with the styling current in `s`. -/
def mkDraw (s : RState) (text : String) (x y : ℤ) (centered : Bool) : TextDraw :=
  { text := text, x := x, y := y, page := s.page, fontSize := s.fontSize,
    textColor := s.textColor, centered := centered }

/-- Lines 136-143 of src/App.tsx, one iteration of the inner loop: before
drawing, if yPos exceeds pageHeight - margin, add a page and reset yPos to
the top margin; then draw the bulleted line at margin + 5 and advance yPos
by one line height.  (The bullet glyph is the literal three characters that
appear in the source.) -/
def drawWrappedLine (s : RState) (line : String) : RState × List TextDraw :=
  let s :=
    if pageHeight - margin < s.y then
      { s with pages := s.pages + 1, page := s.pages + 1, y := margin }
    else s
  ({ s with y := s.y + lineHeight },
   [mkDraw s ("â€¢ " ++ line) (margin + 5 * mmUnit) s.y false])

/-- The inner `lines.forEach` loop of addSection. -/
def drawLines : RState → List String → RState × List TextDraw
  | s, [] => (s, [])
  | s, line :: rest =>
    let r1 := drawWrappedLine s line
    let r2 := drawLines r1.1 rest
    (r2.1, r1.2 ++ r2.2)

/-- The outer `content.forEach` loop of addSection: each item is wrapped by
the text-measurement facility `wrap` (doc.splitTextToSize at the printable
width) and its lines are drawn one by one. -/
def drawItems (wrap : String → List String) : RState → List String → RState × List TextDraw
  | s, [] => (s, [])
  | s, item :: rest =>
    let r1 := drawLines s (wrap item)
    let r2 := drawItems wrap r1.1 rest
    (r2.1, r1.2 ++ r2.2)

/-- Lines 126-146 of src/App.tsx: section heading in font 14 teal, then the
content items in font 12 black, then one extra line height of trailing
space. -/
def addSection (wrap : String → List String) (title : String) (content : List String)
    (s : RState) : RState × List TextDraw :=
  let s1 := { s with fontSize := 14, textColor := (0, 128, 128) }
  let d0 := mkDraw s1 title margin s1.y false
  let s2 := { s1 with y := s1.y + lineHeight, fontSize := 12, textColor := (0, 0, 0) }
  let r := drawItems wrap s2 content
  ({ r.1 with y := r.1.y + lineHeight }, d0 :: r.2)

/-- Sequencing of consecutive addSection calls. -/
def addSections (wrap : String → List String) : RState → List (String × List String) → RState × List TextDraw
  | s, [] => (s, [])
  | s, (title, content) :: rest =>
    let r1 := addSection wrap title content s
    let r2 := addSections wrap r1.1 rest
    (r2.1, r1.2 ++ r2.2)

/-- The eleven addSection calls of lines 148-166 of src/App.tsx, in source
order, with the exact title strings and content lists. -/
def sectionsOf (a : ResumeAnalysis) : List (String × List String) :=
  [("Readability Analysis", a.detailedAnalysis.readability.feedback),
   ("Keyword Analysis",
     ["Found Keywords: " ++ ", ".intercalate a.detailedAnalysis.keywords.found,
      "Missing Important Keywords: " ++ ", ".intercalate a.detailedAnalysis.keywords.missing]),
   ("Experience Analysis", a.detailedAnalysis.experience.feedback),
   ("Education Analysis", a.detailedAnalysis.education.feedback),
   ("Impact Verbs Used", a.semanticAnalysis.impactVerbs),
   ("Industry-Specific Keywords", a.semanticAnalysis.industryKeywords),
   ("Critical Improvements Needed", a.suggestions.critical),
   ("Recommended Improvements", a.suggestions.recommended),
   ("Optional Enhancements", a.suggestions.optional),
   ("Hard Skills", a.hardSkills),
   ("Soft Skills", a.softSkills)]

/-- Line 171 of src/App.tsx. -/
def footerText : String := "Generated by Resume Check - Comprehensive ATS Analysis Report"

/-- The document state at the start of the section loop (line 148 of
src/App.tsx): still on page one, font 16 black current from the score line,
with the cursor advanced from its initial 20 by 2 + 1 + 2 + 2 line
heights. -/
def sectionStart : RState :=
  { page := 1, pages := 1, fontSize := 16, textColor := (0, 0, 0),
    y := 20 * mmUnit + lineHeight * 2 + lineHeight + lineHeight * 2 + lineHeight * 2 }

/-- Lines 100-172 of src/App.tsx: the whole rendering pass.  `wrap` is the
text-measurement facility (doc.splitTextToSize at the printable width) and
`dateStr` the value of new Date().toLocaleDateString().  The header block
(lines 106-123) is straight-line code mutating only yPos, font size and
colour, so its four draws are written as the literal draw calls it makes,
with yPos constant-folded: title at 20, file name at 20 + 2 lh, date one
line height later, overall score two line heights after that. -/
def renderReport (wrap : String → List String) (dateStr : String)
    (a : ResumeAnalysis) : RState × List TextDraw :=
  let dTitle : TextDraw :=
    { text := "Resume Analysis Report", x := margin, y := 20 * mmUnit,
      page := 1, fontSize := 24, textColor := (0, 128, 128), centered := false }
  let dFile : TextDraw :=
    { text := "File Name: " ++ a.fileName, x := margin,
      y := 20 * mmUnit + lineHeight * 2,
      page := 1, fontSize := 12, textColor := (0, 0, 0), centered := false }
  let dDate : TextDraw :=
    { text := "Analysis Date: " ++ dateStr, x := margin,
      y := 20 * mmUnit + lineHeight * 2 + lineHeight,
      page := 1, fontSize := 12, textColor := (0, 0, 0), centered := false }
  let dScore : TextDraw :=
    { text := "Overall ATS Score: " ++ toString a.score ++ "/100", x := margin,
      y := 20 * mmUnit + lineHeight * 2 + lineHeight + lineHeight * 2,
      page := 1, fontSize := 16, textColor := (0, 0, 0), centered := false }
  let r := addSections wrap sectionStart (sectionsOf a)
  let s9 := { r.1 with fontSize := 10, textColor := (128, 128, 128) }
  let dFooter : TextDraw :=
    { text := footerText, x := pageWidth / 2, y := pageHeight - 10 * mmUnit,
      page := s9.page, fontSize := 10, textColor := (128, 128, 128), centered := true }
  (s9, dTitle :: dFile :: dDate :: dScore :: (r.2 ++ [dFooter]))

/-- Lines 97-176 of src/App.tsx: the guard `if (!analysis) return;` followed
by rendering and doc.save.  The result pairs the produced document with the
file name handed to save; `none` means the handler returned with no
effect. -/
def handleDownloadReport (wrap : String → List String) (dateStr : String) :
    Option ResumeAnalysis → Option ((RState × List TextDraw) × String)
  | none => none
  | some analysis =>
    some (renderReport wrap dateStr analysis, "detailed-resume-analysis.pdf")

/-- Lines 178-272 of src/App.tsx: the simulated analysis result, constant
except for the uploaded file name and preview. -/
def analyzeResume (fileName : String) (filePreview : String) : ResumeAnalysis :=
  { score := 85,
    fileName := fileName,
    filePreview := filePreview,
    detailedAnalysis :=
      { readability :=
          { score := 90,
            feedback :=
              ["Good use of clear, concise language",
               "Professional tone maintained throughout",
               "Consider breaking down longer paragraphs for better readability",
               "Some sentences could be more concise"] },
        keywords :=
          { score := 85,
            found := ["project management", "agile", "leadership", "strategic planning"],
            missing := ["data analysis", "budget management", "stakeholder communication"] },
        experience :=
          { score := 88,
            feedback :=
              ["Strong demonstration of progressive responsibility",
               "Quantifiable achievements well documented",
               "Consider adding more specific project outcomes",
               "Include technology stack details for technical projects"] },
        education :=
          { score := 95,
            feedback :=
              ["Relevant certifications clearly listed",
               "Academic achievements well presented",
               "Consider adding relevant coursework section",
               "Include any academic projects related to target role"] } },
    softSkills :=
      ["Leadership", "Communication", "Problem Solving", "Teamwork",
       "Adaptability", "Time Management", "Critical Thinking"],
    hardSkills :=
      ["React", "TypeScript", "Node.js", "Python", "Project Management",
       "Agile Methodologies", "Data Analysis"],
    suggestions :=
      { critical :=
          ["Add more quantifiable achievements with specific metrics",
           "Include relevant certifications and their dates",
           "Optimize keywords for ATS systems"],
        recommended :=
          ["Enhance professional summary with industry-specific keywords",
           "Add a skills matrix section",
           "Include relevant volunteer work or side projects"],
        optional :=
          ["Consider adding a brief personal statement",
           "Include relevant social media profiles",
           "Add language proficiency levels"] },
    semanticAnalysis :=
      { measurableAchievements := 6,
        skillsEfficiencyRatio := 1,
        impactVerbs := ["Led", "Implemented", "Developed", "Managed", "Orchestrated", "Streamlined"],
        industryKeywords :=
          ["Digital Transformation", "Agile Development", "Cross-functional Teams", "Strategic Planning"] } }

/-! ## Derived counting functions and concrete instances used in claims -/

/-- Number of wrapped lines the facility produces for a list of content
items. -/
def itemsLines (wrap : String → List String) (items : List String) : ℕ :=
  (items.map (fun i => (wrap i).length)).sum

/-- Number of wrapped lines over a list of sections. -/
def secsLines (wrap : String → List String) (secs : List (String × List String)) : ℕ :=
  (secs.map (fun sc => itemsLines wrap sc.2)).sum

/-- Combined wrapped-line count of a whole report under the facility
`wrap`. -/
def totalWrappedLines (wrap : String → List String) (a : ResumeAnalysis) : ℕ :=
  secsLines wrap (sectionsOf a)

/-- A wrapping facility under which every string fits on a single line
(adequate for short strings). -/
def singleLineWrap : String → List String := fun s => [s]

/-- A draw with its text blanked, used to compare documents up to the
generation-timestamp line. -/
def eraseText (d : TextDraw) : TextDraw := { d with text := "" }

/-- A report whose list fields are all empty. -/
def emptyReport : ResumeAnalysis :=
  { score := 85, fileName := "resume.pdf", filePreview := "preview",
    detailedAnalysis :=
      { readability := { score := 90, feedback := [] },
        keywords := { score := 85, found := [], missing := [] },
        experience := { score := 88, feedback := [] },
        education := { score := 95, feedback := [] } },
    softSkills := [], hardSkills := [],
    suggestions := { critical := [], recommended := [], optional := [] },
    semanticAnalysis :=
      { measurableAchievements := 0, skillsEfficiencyRatio := 1,
        impactVerbs := [], industryKeywords := [] } }

/-- A report with more wrapped content lines than one page holds. -/
def longReport : ResumeAnalysis :=
  { emptyReport with
    detailedAnalysis :=
      { emptyReport.detailedAnalysis with
        readability := { score := 90, feedback := List.replicate 26 "x" } } }

/-! ## Basic lemmas about the drawing primitives -/

theorem drawWrappedLine_pages_le (s : RState) (line : String) :
    s.pages ≤ (drawWrappedLine s line).1.pages := by
  unfold drawWrappedLine
  split <;> simp

theorem drawWrappedLine_fontSize (s : RState) (line : String) :
    (drawWrappedLine s line).1.fontSize = s.fontSize := by
  unfold drawWrappedLine
  split <;> rfl

theorem drawWrappedLine_textColor (s : RState) (line : String) :
    (drawWrappedLine s line).1.textColor = s.textColor := by
  unfold drawWrappedLine
  split <;> rfl

theorem drawWrappedLine_aligned (s : RState) (line : String) (h : s.page = s.pages) :
    (drawWrappedLine s line).1.page = (drawWrappedLine s line).1.pages := by
  unfold drawWrappedLine
  split <;> simp [h]

/-- The single draw emitted for a wrapped line: current styling, bullet
prefix, fixed indent, not centered, and a vertical position that never
exceeds the bottom-margin threshold (this is the effect of the pre-draw
page-break check). -/
theorem drawWrappedLine_draw (s : RState) (line : String) (d : TextDraw)
    (hd : d ∈ (drawWrappedLine s line).2) :
    d.fontSize = s.fontSize ∧ d.textColor = s.textColor ∧
    d.x = margin + 5 * mmUnit ∧ d.centered = false ∧
    d.text = "â€¢ " ++ line ∧ d.y ≤ pageHeight - margin := by
  unfold drawWrappedLine at hd
  split at hd
  case isTrue h =>
    simp [mkDraw] at hd
    subst hd
    refine ⟨rfl, rfl, rfl, rfl, rfl, ?_⟩
    simp [margin, pageHeight, mmUnit]
  case isFalse h =>
    simp [mkDraw] at hd
    subst hd
    refine ⟨rfl, rfl, rfl, rfl, rfl, ?_⟩
    show s.y ≤ pageHeight - margin
    omega

theorem drawLines_pages_le : ∀ (ls : List String) (s : RState),
    s.pages ≤ (drawLines s ls).1.pages
  | [], s => le_refl _
  | line :: rest, s =>
    le_trans (drawWrappedLine_pages_le s line) (drawLines_pages_le rest _)

theorem drawLines_fontSize : ∀ (ls : List String) (s : RState),
    (drawLines s ls).1.fontSize = s.fontSize
  | [], _ => rfl
  | line :: rest, s => by
    rw [show (drawLines s (line :: rest)).1 = (drawLines (drawWrappedLine s line).1 rest).1 from rfl,
      drawLines_fontSize rest, drawWrappedLine_fontSize]

theorem drawLines_textColor : ∀ (ls : List String) (s : RState),
    (drawLines s ls).1.textColor = s.textColor
  | [], _ => rfl
  | line :: rest, s => by
    rw [show (drawLines s (line :: rest)).1 = (drawLines (drawWrappedLine s line).1 rest).1 from rfl,
      drawLines_textColor rest, drawWrappedLine_textColor]

theorem drawLines_aligned : ∀ (ls : List String) (s : RState),
    s.page = s.pages → (drawLines s ls).1.page = (drawLines s ls).1.pages
  | [], _, h => h
  | line :: rest, s, h =>
    drawLines_aligned rest _ (drawWrappedLine_aligned s line h)

theorem drawLines_draw : ∀ (ls : List String) (s : RState) (d : TextDraw),
    d ∈ (drawLines s ls).2 →
    d.fontSize = s.fontSize ∧ d.textColor = s.textColor ∧
    d.x = margin + 5 * mmUnit ∧ d.centered = false ∧ d.y ≤ pageHeight - margin
  | [], s, d, hd => by simp [drawLines] at hd
  | line :: rest, s, d, hd => by
    rw [show (drawLines s (line :: rest)).2 =
        (drawWrappedLine s line).2 ++ (drawLines (drawWrappedLine s line).1 rest).2 from rfl] at hd
    rcases List.mem_append.1 hd with h | h
    · obtain ⟨h1, h2, h3, h4, _, h6⟩ := drawWrappedLine_draw s line d h
      exact ⟨h1, h2, h3, h4, h6⟩
    · obtain ⟨h1, h2, h3, h4, h5⟩ := drawLines_draw rest _ d h
      exact ⟨by rw [h1, drawWrappedLine_fontSize], by rw [h2, drawWrappedLine_textColor], h3, h4, h5⟩

theorem drawLines_texts : ∀ (ls : List String) (s : RState),
    (drawLines s ls).2.map TextDraw.text = ls.map (fun l => "â€¢ " ++ l)
  | [], _ => rfl
  | line :: rest, s => by
    rw [show (drawLines s (line :: rest)).2 =
        (drawWrappedLine s line).2 ++ (drawLines (drawWrappedLine s line).1 rest).2 from rfl]
    rw [List.map_append, drawLines_texts rest]
    unfold drawWrappedLine
    split <;> rfl

theorem drawItems_pages_le (wrap : String → List String) : ∀ (items : List String) (s : RState),
    s.pages ≤ (drawItems wrap s items).1.pages
  | [], s => le_refl _
  | item :: rest, s =>
    le_trans (drawLines_pages_le (wrap item) s) (drawItems_pages_le wrap rest _)

theorem drawItems_fontSize (wrap : String → List String) : ∀ (items : List String) (s : RState),
    (drawItems wrap s items).1.fontSize = s.fontSize
  | [], _ => rfl
  | item :: rest, s => by
    rw [show (drawItems wrap s (item :: rest)).1 =
        (drawItems wrap (drawLines s (wrap item)).1 rest).1 from rfl,
      drawItems_fontSize wrap rest, drawLines_fontSize]

theorem drawItems_textColor (wrap : String → List String) : ∀ (items : List String) (s : RState),
    (drawItems wrap s items).1.textColor = s.textColor
  | [], _ => rfl
  | item :: rest, s => by
    rw [show (drawItems wrap s (item :: rest)).1 =
        (drawItems wrap (drawLines s (wrap item)).1 rest).1 from rfl,
      drawItems_textColor wrap rest, drawLines_textColor]

theorem drawItems_aligned (wrap : String → List String) : ∀ (items : List String) (s : RState),
    s.page = s.pages → (drawItems wrap s items).1.page = (drawItems wrap s items).1.pages
  | [], _, h => h
  | item :: rest, s, h =>
    drawItems_aligned wrap rest _ (drawLines_aligned (wrap item) s h)

theorem drawItems_draw (wrap : String → List String) :
    ∀ (items : List String) (s : RState) (d : TextDraw),
    d ∈ (drawItems wrap s items).2 →
    d.fontSize = s.fontSize ∧ d.textColor = s.textColor ∧
    d.x = margin + 5 * mmUnit ∧ d.centered = false ∧ d.y ≤ pageHeight - margin
  | [], s, d, hd => by simp [drawItems] at hd
  | item :: rest, s, d, hd => by
    rw [show (drawItems wrap s (item :: rest)).2 =
        (drawLines s (wrap item)).2 ++ (drawItems wrap (drawLines s (wrap item)).1 rest).2 from rfl] at hd
    rcases List.mem_append.1 hd with h | h
    · exact drawLines_draw (wrap item) s d h
    · obtain ⟨h1, h2, h3, h4, h5⟩ := drawItems_draw wrap rest _ d h
      exact ⟨by rw [h1, drawLines_fontSize], by rw [h2, drawLines_textColor], h3, h4, h5⟩

theorem addSection_pages_le (wrap : String → List String) (title : String)
    (content : List String) (s : RState) :
    s.pages ≤ (addSection wrap title content s).1.pages := by
  have h := drawItems_pages_le wrap content
    { s with y := s.y + lineHeight, fontSize := 12, textColor := (0, 0, 0) }
  exact h

theorem addSection_aligned (wrap : String → List String) (title : String)
    (content : List String) (s : RState) (h : s.page = s.pages) :
    (addSection wrap title content s).1.page = (addSection wrap title content s).1.pages := by
  have h2 := drawItems_aligned wrap content
    { s with y := s.y + lineHeight, fontSize := 12, textColor := (0, 0, 0) } h
  exact h2

/-- Every draw of a section is either its heading (font 14, at the left
margin) or a bulleted content line (font 12, indented, below the
threshold); none is centered. -/
theorem addSection_draw (wrap : String → List String) (title : String)
    (content : List String) (s : RState) (d : TextDraw)
    (hd : d ∈ (addSection wrap title content s).2) :
    d.centered = false ∧
    (d.fontSize = 14 ∧ d.x = margin ∧ d.text = title ∨
     d.fontSize = 12 ∧ d.x = margin + 5 * mmUnit ∧ d.y ≤ pageHeight - margin) := by
  rw [show (addSection wrap title content s).2 =
      mkDraw { s with fontSize := 14, textColor := (0, 128, 128) } title margin s.y false ::
      (drawItems wrap
        { s with y := s.y + lineHeight, fontSize := 12, textColor := (0, 0, 0) } content).2
    from rfl] at hd
  rcases List.mem_cons.1 hd with h | h
  · subst h
    exact ⟨rfl, Or.inl ⟨rfl, rfl, rfl⟩⟩
  · obtain ⟨h1, _, h3, h4, h5⟩ := drawItems_draw wrap content _ d h
    exact ⟨h4, Or.inr ⟨h1, h3, h5⟩⟩

theorem addSections_pages_le (wrap : String → List String) :
    ∀ (secs : List (String × List String)) (s : RState),
    s.pages ≤ (addSections wrap s secs).1.pages
  | [], s => le_refl _
  | (title, content) :: rest, s =>
    le_trans (addSection_pages_le wrap title content s) (addSections_pages_le wrap rest _)

theorem addSections_aligned (wrap : String → List String) :
    ∀ (secs : List (String × List String)) (s : RState),
    s.page = s.pages → (addSections wrap s secs).1.page = (addSections wrap s secs).1.pages
  | [], _, h => h
  | (title, content) :: rest, s, h =>
    addSections_aligned wrap rest _ (addSection_aligned wrap title content s h)

theorem addSections_draw (wrap : String → List String) :
    ∀ (secs : List (String × List String)) (s : RState) (d : TextDraw),
    d ∈ (addSections wrap s secs).2 →
    d.centered = false ∧
    (d.x = margin + 5 * mmUnit → d.y ≤ pageHeight - margin)
  | [], s, d, hd => by simp [addSections] at hd
  | (title, content) :: rest, s, d, hd => by
    rw [show (addSections wrap s ((title, content) :: rest)).2 =
        (addSection wrap title content s).2 ++
        (addSections wrap (addSection wrap title content s).1 rest).2 from rfl] at hd
    rcases List.mem_append.1 hd with h | h
    · obtain ⟨h1, h2 | h2⟩ := addSection_draw wrap title content s d h
      · refine ⟨h1, fun hx => absurd (h2.2.1.symm.trans hx) (by decide)⟩
      · exact ⟨h1, fun _ => h2.2.2⟩
    · exact addSections_draw wrap rest _ d h

/-- The draws of a run of sections, filtered to heading font size, are
exactly the section titles in order. -/
theorem addSections_headings (wrap : String → List String) :
    ∀ (secs : List (String × List String)) (s : RState),
    ((addSections wrap s secs).2.filter (fun d => decide (d.fontSize = 14))).map TextDraw.text =
      secs.map Prod.fst
  | [], s => rfl
  | (title, content) :: rest, s => by
    rw [show (addSections wrap s ((title, content) :: rest)).2 =
        (addSection wrap title content s).2 ++
        (addSections wrap (addSection wrap title content s).1 rest).2 from rfl]
    rw [List.filter_append, List.map_append, addSections_headings wrap rest]
    rw [show (addSection wrap title content s).2 =
        mkDraw { s with fontSize := 14, textColor := (0, 128, 128) } title margin s.y false ::
        (drawItems wrap
          { s with y := s.y + lineHeight, fontSize := 12, textColor := (0, 0, 0) } content).2
      from rfl]
    rw [List.filter_cons]
    have hcontent : ((drawItems wrap
        { s with y := s.y + lineHeight, fontSize := 12, textColor := (0, 0, 0) } content).2.filter
          (fun d => decide (d.fontSize = 14))) = [] :=
      List.filter_eq_nil_iff.mpr (by
        intro d hd
        have h12 : d.fontSize = 12 := (drawItems_draw wrap content _ d hd).1
        simp [h12])
    rw [hcontent]
    simp [mkDraw]

/-! ## Pagination: what holds when no page break occurs, and when one is
forced -/

/-- If a run of wrapped lines triggers no page break, the cursor advanced by
exactly one line height per line and the last line was checked at a position
still within the threshold. -/
theorem drawLines_noBreak : ∀ (ls : List String) (s : RState),
    (drawLines s ls).1.pages = s.pages →
    (drawLines s ls).1.y = s.y + lineHeight * ls.length ∧
    (ls ≠ [] → s.y + lineHeight * ((ls.length : ℤ) - 1) ≤ pageHeight - margin)
  | [], s, _ => by simp [drawLines]
  | line :: rest, s, hp => by
    by_cases hbr : pageHeight - margin < s.y
    · exfalso
      have h1 : (drawWrappedLine s line).1.pages = s.pages + 1 := by
        unfold drawWrappedLine
        rw [if_pos hbr]
      have h2 := drawLines_pages_le rest (drawWrappedLine s line).1
      rw [show (drawLines s (line :: rest)).1 =
          (drawLines (drawWrappedLine s line).1 rest).1 from rfl] at hp
      omega
    · have hstep : (drawWrappedLine s line).1 = { s with y := s.y + lineHeight } := by
        unfold drawWrappedLine
        rw [if_neg hbr]
      rw [show (drawLines s (line :: rest)).1 =
          (drawLines (drawWrappedLine s line).1 rest).1 from rfl, hstep] at hp ⊢
      obtain ⟨hy, hlast⟩ := drawLines_noBreak rest { s with y := s.y + lineHeight } hp
      constructor
      · rw [hy]
        simp [List.length_cons]
        push_cast
        ring
      · intro _
        rcases List.eq_nil_or_concat rest with hr | _
        · subst hr
          simpa using not_lt.mp hbr
        · have hne : rest ≠ [] := by
            rintro rfl
            simp_all
          have := hlast hne
          simp only [List.length_cons]
          push_cast
          push_cast at this
          linarith

/-- Same statement one level up, over the items of a section. -/
theorem drawItems_noBreak (wrap : String → List String) :
    ∀ (items : List String) (s : RState),
    (drawItems wrap s items).1.pages = s.pages →
    (drawItems wrap s items).1.y = s.y + lineHeight * itemsLines wrap items ∧
    (itemsLines wrap items ≠ 0 →
      s.y + lineHeight * ((itemsLines wrap items : ℤ) - 1) ≤ pageHeight - margin)
  | [], s, _ => by simp [drawItems, itemsLines]
  | item :: rest, s, hp => by
    have hsplit : (drawItems wrap s (item :: rest)).1 =
        (drawItems wrap (drawLines s (wrap item)).1 rest).1 := rfl
    rw [hsplit] at hp ⊢
    have hple1 := drawLines_pages_le (wrap item) s
    have hple2 := drawItems_pages_le wrap rest (drawLines s (wrap item)).1
    have hp1 : (drawLines s (wrap item)).1.pages = s.pages := by omega
    have hp2 : (drawItems wrap (drawLines s (wrap item)).1 rest).1.pages =
        (drawLines s (wrap item)).1.pages := by omega
    obtain ⟨hy1, hlast1⟩ := drawLines_noBreak (wrap item) s hp1
    obtain ⟨hy2, hlast2⟩ := drawItems_noBreak wrap rest _ hp2
    have hcount : (itemsLines wrap (item :: rest) : ℤ) =
        (wrap item).length + itemsLines wrap rest := by
      simp [itemsLines]
    constructor
    · rw [hy2, hy1, hcount]
      ring
    · intro hne
      by_cases hrest : itemsLines wrap rest = 0
      · have hitem : (wrap item) ≠ [] := by
          simp only [itemsLines] at hne hrest
          simp only [List.map_cons, List.sum_cons] at hne
          intro hnil
          rw [hnil] at hne
          simp [hrest] at hne
        have := hlast1 hitem
        rw [hcount, hrest]
        push_cast
        push_cast at this
        linarith
      · have := hlast2 hrest
        rw [hy1] at this
        rw [hcount]
        push_cast
        push_cast at this
        linarith

/-- Same statement for a whole section: heading, content, trailing space. -/
theorem addSection_noBreak (wrap : String → List String) (title : String)
    (content : List String) (s : RState)
    (hp : (addSection wrap title content s).1.pages = s.pages) :
    (addSection wrap title content s).1.y =
      s.y + lineHeight * (itemsLines wrap content + 2) ∧
    (itemsLines wrap content ≠ 0 →
      s.y + lineHeight + lineHeight * ((itemsLines wrap content : ℤ) - 1) ≤ pageHeight - margin) := by
  have hs2 : (addSection wrap title content s).1 =
      { (drawItems wrap
          { s with y := s.y + lineHeight, fontSize := 12, textColor := (0, 0, 0) } content).1
        with y := (drawItems wrap
          { s with y := s.y + lineHeight, fontSize := 12, textColor := (0, 0, 0) } content).1.y
          + lineHeight } := rfl
  rw [hs2] at hp ⊢
  obtain ⟨hy, hlast⟩ := drawItems_noBreak wrap content
    { s with y := s.y + lineHeight, fontSize := 12, textColor := (0, 0, 0) } hp
  constructor
  · simp only [hy]
    push_cast
    ring
  · intro hne
    have := hlast hne
    simp only at this
    push_cast at this ⊢
    linarith

/-- The main pagination invariant, threaded through the section list: pages
never decrease, and as long as everything stayed on page one the cursor sits
at least `lineHeight` per drawn content line below the start of the section
area (90 mm), while the position of the last content line drawn so far was
within the threshold. -/
theorem addSections_invariant (wrap : String → List String) :
    ∀ (secs : List (String × List String)) (s : RState) (n : ℕ),
    1 ≤ s.pages →
    (s.pages = 1 → 90 * mmUnit + lineHeight * (n : ℤ) ≤ s.y ∧
      (1 ≤ n → 90 * mmUnit + lineHeight * (n : ℤ) ≤ pageHeight - margin)) →
    1 ≤ (addSections wrap s secs).1.pages ∧
    ((addSections wrap s secs).1.pages = 1 →
      90 * mmUnit + lineHeight * ((n + secsLines wrap secs : ℕ) : ℤ) ≤ (addSections wrap s secs).1.y ∧
      (1 ≤ n + secsLines wrap secs →
        90 * mmUnit + lineHeight * ((n + secsLines wrap secs : ℕ) : ℤ) ≤ pageHeight - margin))
  | [], s, n, h1, hP => by
    refine ⟨h1, ?_⟩
    simpa [secsLines] using hP
  | (title, content) :: rest, s, n, h1, hP => by
    have hsplit : (addSections wrap s ((title, content) :: rest)).1 =
        (addSections wrap (addSection wrap title content s).1 rest).1 := rfl
    rw [hsplit]
    set s1 := (addSection wrap title content s).1 with hs1
    have hle1 : s.pages ≤ s1.pages := addSection_pages_le wrap title content s
    set m := itemsLines wrap content with hm
    have hP1 : s1.pages = 1 → 90 * mmUnit + lineHeight * ((n + m : ℕ) : ℤ) ≤ s1.y ∧
        (1 ≤ n + m → 90 * mmUnit + lineHeight * ((n + m : ℕ) : ℤ) ≤ pageHeight - margin) := by
      intro hsp1
      have hsp : s.pages = 1 := by omega
      obtain ⟨hA, hB⟩ := hP hsp
      obtain ⟨hy, hlast⟩ := addSection_noBreak wrap title content s (by rw [← hs1]; omega)
      constructor
      · rw [← hs1] at hy
        rw [hy]
        have hlh : (0 : ℤ) < lineHeight := by decide
        push_cast
        nlinarith
      · intro hnm
        by_cases hm0 : m = 0
        · have hn1 : 1 ≤ n := by omega
          have := hB hn1
          rw [hm0]
          simpa using this
        · have := hlast hm0
          push_cast at this ⊢
          linarith
    have hrec := addSections_invariant wrap rest s1 (n + m) (le_trans h1 hle1) hP1
    have hcount : secsLines wrap ((title, content) :: rest) = m + secsLines wrap rest := by
      rw [hm]
      simp [secsLines, itemsLines]
    have heq : n + secsLines wrap ((title, content) :: rest) = (n + m) + secsLines wrap rest := by
      omega
    rw [heq]
    exact hrec

theorem getLast_cons4_concat {α : Type} (a b c d x : α) (l : List α) :
    (a :: b :: c :: d :: (l ++ [x])).getLast? = some x := by
  rw [show a :: b :: c :: d :: (l ++ [x]) = (a :: b :: c :: d :: l) ++ [x] by simp]
  exact List.getLast?_concat _

theorem dropLast_cons4_concat {α : Type} (a b c d x : α) (l : List α) :
    (a :: b :: c :: d :: (l ++ [x])).dropLast = a :: b :: c :: d :: l := by
  rw [show a :: b :: c :: d :: (l ++ [x]) = (a :: b :: c :: d :: l) ++ [x] by simp]
  exact List.dropLast_concat

/-! ## Claim theorems -/

/-- Claim C1, amended.  For every report whose combined wrapped-line count
exceeds one page capacity, rendering produces more than one page; and every
wrapped content line (the draws at the bullet indent margin + 5 mm) sits at
or below the bottom-margin threshold, because of the pre-draw page-break
check.  (The original claim said this of every drawn line; headings and the
footer are drawn without the check and can land beyond the threshold, see
the counterexample.) -/
theorem resume_c1_pagination (wrap : String → List String) (dateStr : String)
    (a : ResumeAnalysis) :
    (pageCapacity < (totalWrappedLines wrap a : ℤ) →
      2 ≤ (renderReport wrap dateStr a).1.pages) ∧
    (∀ d ∈ (renderReport wrap dateStr a).2, d.x = margin + 5 * mmUnit →
      d.y ≤ pageHeight - margin) := by
  constructor
  · intro hcap
    simp only [totalWrappedLines] at hcap
    have h25 : pageCapacity = 25 := by decide
    rw [h25] at hcap
    have hN : 26 ≤ secsLines wrap (sectionsOf a) := by omega
    have hinv := addSections_invariant wrap (sectionsOf a) sectionStart 0
      (by decide)
      (by
        intro _
        exact ⟨by decide, fun h => absurd h (by decide)⟩)
    obtain ⟨hge1, hone⟩ := hinv
    have hpag : (renderReport wrap dateStr a).1.pages =
        (addSections wrap sectionStart (sectionsOf a)).1.pages := rfl
    rw [hpag]
    by_contra hlt
    have h1 : (addSections wrap sectionStart (sectionsOf a)).1.pages = 1 := by omega
    obtain ⟨_, hbound⟩ := hone h1
    have hb := hbound (by omega)
    simp only [mmUnit, lineHeight, pageHeight, margin] at hb
    omega
  · intro d hd hx
    simp only [renderReport, mkDraw, List.mem_cons, List.mem_append,
      List.mem_singleton] at hd
    rcases hd with rfl | rfl | rfl | rfl | hd | rfl | h
    · exact absurd hx (by decide)
    · exact absurd (show margin = margin + 5 * mmUnit from hx) (by decide)
    · exact absurd (show margin = margin + 5 * mmUnit from hx) (by decide)
    · exact absurd (show margin = margin + 5 * mmUnit from hx) (by decide)
    · exact (addSections_draw wrap (sectionsOf a) _ d hd).2 hx
    · exact absurd (show pageWidth / 2 = margin + 5 * mmUnit from hx) (by decide)
    · exact absurd h (List.not_mem_nil d)

set_option maxHeartbeats 2000000 in
set_option maxRecDepth 10000 in
theorem resume_c1_pagination_witness :
    pageCapacity < (totalWrappedLines singleLineWrap longReport : ℤ) ∧
    2 ≤ (renderReport singleLineWrap "10/11/2025" longReport).1.pages ∧
    ({ text := "â€¢ x", x := margin + 5 * mmUnit, y := 7200000, page := 1, fontSize := 12,
       textColor := (0, 0, 0), centered := false } : TextDraw).y ≤ pageHeight - margin :=
  ⟨by decide,
   (resume_c1_pagination singleLineWrap "10/11/2025" longReport).1 (by decide),
   (resume_c1_pagination singleLineWrap "10/11/2025" longReport).2 _ (by decide) rfl⟩

set_option maxHeartbeats 4000000 in
/-- Claim C1, counterexample to the claim as stated: in the document
rendered for the mock report there is a drawn line whose vertical position
exceeds the bottom-margin threshold (the footer, drawn at
pageHeight - 10 mm, and also section headings pushed past the threshold,
are drawn without any page-break check). -/
theorem resume_c1_counterexample :
    ∃ d ∈ (renderReport singleLineWrap "10/11/2025" (analyzeResume "resume.pdf" "preview")).2,
      pageHeight - margin < d.y := by decide

/-- Claim C2: the rendered document emits its sections in the fixed source
order, for every report and every wrapping facility: the heading draws
(font size 14), in document order, are exactly the eleven section titles. -/
theorem resume_c2_section_order (wrap : String → List String) (dateStr : String)
    (a : ResumeAnalysis) :
    ((renderReport wrap dateStr a).2.filter (fun d => decide (d.fontSize = 14))).map TextDraw.text =
      ["Readability Analysis", "Keyword Analysis", "Experience Analysis", "Education Analysis",
       "Impact Verbs Used", "Industry-Specific Keywords", "Critical Improvements Needed",
       "Recommended Improvements", "Optional Enhancements", "Hard Skills", "Soft Skills"] := by
  simp [renderReport, mkDraw, addSections_headings, sectionsOf]

/-- Claim C4: rendering the same report twice yields identical documents
once the generation-date line (the draw at index 2) is compared with its
text erased; the final state and every other draw agree exactly. -/
theorem resume_c4_determinism (wrap : String → List String) (date1 date2 : String)
    (a : ResumeAnalysis) :
    (renderReport wrap date1 a).1 = (renderReport wrap date2 a).1 ∧
    (∀ i : ℕ, i ≠ 2 →
      (renderReport wrap date1 a).2.get? i = (renderReport wrap date2 a).2.get? i) ∧
    ((renderReport wrap date1 a).2.get? 2).map eraseText =
      ((renderReport wrap date2 a).2.get? 2).map eraseText := by
  refine ⟨rfl, ?_, rfl⟩
  intro i hi
  match i with
  | 0 => rfl
  | 1 => rfl
  | 2 => exact absurd rfl hi
  | (n + 3) => rfl

theorem resume_c4_determinism_witness :
    (renderReport singleLineWrap "01/01/2025" (analyzeResume "resume.pdf" "preview")).2.get? 0 =
      (renderReport singleLineWrap "02/02/2025" (analyzeResume "resume.pdf" "preview")).2.get? 0 :=
  (resume_c4_determinism singleLineWrap "01/01/2025" "02/02/2025"
    (analyzeResume "resume.pdf" "preview")).2.1 0 (by decide)

/-- Claim C7: the footer is the last draw of the document, centered, in
font 10 grey, at pageHeight - 10 mm, on the final page; no other draw is
centered, so it appears exactly once and on no earlier page. -/
theorem resume_c7_footer_once (wrap : String → List String) (dateStr : String)
    (a : ResumeAnalysis) :
    (renderReport wrap dateStr a).2.getLast? =
      some { text := footerText, x := pageWidth / 2, y := pageHeight - 10 * mmUnit,
             page := (renderReport wrap dateStr a).1.pages, fontSize := 10,
             textColor := (128, 128, 128), centered := true } ∧
    ((renderReport wrap dateStr a).2.dropLast.all fun d => !d.centered) = true := by
  constructor
  · simp only [renderReport, mkDraw]
    rw [getLast_cons4_concat]
    have halign := addSections_aligned wrap (sectionsOf a) sectionStart rfl
    rw [halign]
  · simp only [renderReport, mkDraw]
    rw [dropLast_cons4_concat]
    simp only [List.all_cons, Bool.not_false, Bool.true_and]
    rw [List.all_eq_true]
    intro d hd
    have := (addSections_draw wrap (sectionsOf a) _ d hd).1
    simp [this]

/-- Claim C8: every completed invocation of the download handler saves the
document under exactly the name detailed-resume-analysis.pdf. -/
theorem resume_c8_save_name (wrap : String → List String) (dateStr : String)
    (a : ResumeAnalysis) :
    (handleDownloadReport wrap dateStr (some a)).map Prod.snd =
      some "detailed-resume-analysis.pdf" := rfl

/-- Claim C9: the analysis producer returns one fixed constant structure
apart from the file name and preview fields, with the fixed scores
85/90/85/88/95, independent of the uploaded file. -/
theorem resume_c9_constant_analysis (f1 p1 f2 p2 : String) :
    (analyzeResume f1 p1).fileName = f1 ∧
    (analyzeResume f1 p1).filePreview = p1 ∧
    { analyzeResume f1 p1 with fileName := "", filePreview := "" } =
      { analyzeResume f2 p2 with fileName := "", filePreview := "" } ∧
    (analyzeResume f1 p1).score = 85 ∧
    (analyzeResume f1 p1).detailedAnalysis.readability.score = 90 ∧
    (analyzeResume f1 p1).detailedAnalysis.keywords.score = 85 ∧
    (analyzeResume f1 p1).detailedAnalysis.experience.score = 88 ∧
    (analyzeResume f1 p1).detailedAnalysis.education.score = 95 :=
  ⟨rfl, rfl, rfl, rfl, rfl, rfl, rfl, rfl⟩

/-- Claim C10: with no analysis present the download handler returns
immediately: no document is built and no save is triggered. -/
theorem resume_c10_no_analysis (wrap : String → List String) (dateStr : String) :
    handleDownloadReport wrap dateStr none = none := rfl

set_option maxHeartbeats 2000000 in
set_option maxRecDepth 10000 in
/-- Claim C3, counterexample to the claim as stated: rendering the mock
report (4 readability strings, 4 + 3 keywords, 7 + 7 skills, 3 + 3 + 3
suggestions, plus its 6 impact verbs and 4 industry keywords), with every
content string on a single wrapped line, does not produce a one-page
document: the 47 content lines plus 11 headings far exceed the 25-line page
capacity. -/
theorem resume_c3_scenario_counterexample :
    (renderReport singleLineWrap "10/11/2025" (analyzeResume "resume.pdf" "preview")).1.pages ≠ 1 := by
  decide

set_option maxHeartbeats 2000000 in
set_option maxRecDepth 10000 in
/-- Claim C3, amended.  For the mock report, with a text-measurement
facility that keeps each of its short content strings on one line, the
rendered document has exactly three pages (not one); it does carry the
title as its first draw, the line Overall ATS Score: 85/100 as its fourth
draw, and a final centered footer whose text contains Resume Check. -/
theorem resume_c3_scenario :
    (renderReport singleLineWrap "10/11/2025" (analyzeResume "resume.pdf" "preview")).1.pages = 3 ∧
    (renderReport singleLineWrap "10/11/2025" (analyzeResume "resume.pdf" "preview")).2.get? 0 =
      some { text := "Resume Analysis Report", x := margin, y := 20 * mmUnit, page := 1,
             fontSize := 24, textColor := (0, 128, 128), centered := false } ∧
    (renderReport singleLineWrap "10/11/2025" (analyzeResume "resume.pdf" "preview")).2.get? 3 =
      some { text := "Overall ATS Score: 85/100", x := margin,
             y := 20 * mmUnit + lineHeight * 2 + lineHeight + lineHeight * 2, page := 1,
             fontSize := 16, textColor := (0, 0, 0), centered := false } ∧
    (renderReport singleLineWrap "10/11/2025" (analyzeResume "resume.pdf" "preview")).2.getLast? =
      some { text := footerText, x := pageWidth / 2, y := pageHeight - 10 * mmUnit,
             page := 3, fontSize := 10, textColor := (128, 128, 128), centered := true } ∧
    footerText = "Generated by " ++ "Resume Check" ++ " - Comprehensive ATS Analysis Report" := by
  refine ⟨by decide, by decide, by decide, by decide, by decide⟩

/-- A report whose list fields are all empty, with arbitrary scores, file
name and preview: the general shape of the reports claim C5 ranges over. -/
def emptyListsReport (sc r1 r2 r3 r4 ma ser : ℤ) (fn fp : String) : ResumeAnalysis :=
  { score := sc, fileName := fn, filePreview := fp,
    detailedAnalysis :=
      { readability := { score := r1, feedback := [] },
        keywords := { score := r2, found := [], missing := [] },
        experience := { score := r3, feedback := [] },
        education := { score := r4, feedback := [] } },
    softSkills := [], hardSkills := [],
    suggestions := { critical := [], recommended := [], optional := [] },
    semanticAnalysis := { measurableAchievements := ma, skillsEfficiencyRatio := ser,
                          impactVerbs := [], industryKeywords := [] } }

/-- Claim C5, counterexample to the claim as stated: for a report in which
every list field is empty the document is not free of bulleted content
lines, because the keyword section always flattens to the two prefix lines
Found Keywords: and Missing Important Keywords: and draws them bulleted. -/
theorem resume_c5_counterexample :
    ((renderReport singleLineWrap "10/11/2025" emptyReport).2.filter
      (fun d => decide (d.x = margin + 5 * mmUnit))) ≠ [] := by decide

/-- Claim C5, amended.  A report in which every list field is empty still
renders, on a single page with no page break, the title, the overall score
line and all eleven section headings; its only bulleted content lines are
the two keyword prefix lines (not zero, as originally claimed); and an
empty section advances the cursor by exactly the heading line height plus
one trailing line height, with no page-break check run inside it.  The
hypotheses pin the wrapping facility on the two short keyword prefix
strings only. -/
theorem resume_c5_empty_sections (wrap : String → List String) (dateStr fn fp : String)
    (sc r1 r2 r3 r4 ma ser : ℤ)
    (hF : wrap "Found Keywords: " = ["Found Keywords: "])
    (hM : wrap "Missing Important Keywords: " = ["Missing Important Keywords: "]) :
    (renderReport wrap dateStr (emptyListsReport sc r1 r2 r3 r4 ma ser fn fp)).1.pages = 1 ∧
    (renderReport wrap dateStr (emptyListsReport sc r1 r2 r3 r4 ma ser fn fp)).2.get? 0 =
      some { text := "Resume Analysis Report", x := margin, y := 20 * mmUnit, page := 1,
             fontSize := 24, textColor := (0, 128, 128), centered := false } ∧
    (renderReport wrap dateStr (emptyListsReport sc r1 r2 r3 r4 ma ser fn fp)).2.get? 3 =
      some { text := "Overall ATS Score: " ++ toString sc ++ "/100", x := margin,
             y := 20 * mmUnit + lineHeight * 2 + lineHeight + lineHeight * 2, page := 1,
             fontSize := 16, textColor := (0, 0, 0), centered := false } ∧
    (((renderReport wrap dateStr (emptyListsReport sc r1 r2 r3 r4 ma ser fn fp)).2.filter
        (fun d => decide (d.fontSize = 14))).map TextDraw.text) =
      ["Readability Analysis", "Keyword Analysis", "Experience Analysis", "Education Analysis",
       "Impact Verbs Used", "Industry-Specific Keywords", "Critical Improvements Needed",
       "Recommended Improvements", "Optional Enhancements", "Hard Skills", "Soft Skills"] ∧
    (((renderReport wrap dateStr (emptyListsReport sc r1 r2 r3 r4 ma ser fn fp)).2.filter
        (fun d => decide (d.x = margin + 5 * mmUnit))).map TextDraw.text) =
      ["â€¢ Found Keywords: ", "â€¢ Missing Important Keywords: "] ∧
    (∀ (t : String) (s : RState), (addSection wrap t [] s).1.y = s.y + lineHeight + lineHeight ∧
      (addSection wrap t [] s).1.pages = s.pages) := by
  have h1 : wrap ("Found Keywords: " ++ ", ".intercalate ([] : List String)) =
      ["Found Keywords: "] := hF
  have h2 : wrap ("Missing Important Keywords: " ++ ", ".intercalate ([] : List String)) =
      ["Missing Important Keywords: "] := hM
  refine ⟨?_, rfl, rfl, ?_, ?_, fun t s => ⟨rfl, rfl⟩⟩
  · simp only [renderReport, emptyListsReport, sectionsOf, addSections, addSection, drawItems,
      drawLines, drawWrappedLine, mkDraw, h1, h2]
    norm_num [sectionStart, margin, lineHeight, mmUnit, pageHeight]
  · simp [renderReport, mkDraw, addSections_headings, sectionsOf]
  · simp only [renderReport, emptyListsReport, sectionsOf, addSections, addSection, drawItems,
      drawLines, drawWrappedLine, mkDraw, h1, h2]
    norm_num [sectionStart, margin, lineHeight, mmUnit, pageHeight, pageWidth]
    exact ⟨rfl, rfl⟩

theorem resume_c5_empty_sections_witness :
    (renderReport singleLineWrap "10/11/2025"
      (emptyListsReport 85 90 85 88 95 0 1 "resume.pdf" "preview")).1.pages = 1 :=
  (resume_c5_empty_sections singleLineWrap "10/11/2025" "resume.pdf" "preview"
    85 90 85 88 95 0 1 rfl rfl).1

/-! ## Word wrapping (modelled from the spec) -/

/-- Width of a string under a character-additive width measure `cw`, in
1/72000 mm units. -/
def strWidth (cw : Char → ℤ) (s : String) : ℤ := (s.data.map cw).sum

/-- Modelled from the spec: the text-measurement facility of the output
medium (jsPDF doc.splitTextToSize, which is not part of this repository)
wraps a content string into lines that fit the available width.  The string
is split into space-separated words and lines are filled greedily: a word
joins the current line when the joined line still fits, otherwise it starts
a new line.  Lines are kept as word groups; the emitted line is the group
rejoined with single spaces. -/
def greedyAux (cw : Char → ℤ) (maxW : ℤ) : List String → List String → List (List String)
  | [], cur => [cur]
  | w :: ws, cur =>
    if strWidth cw (" ".intercalate (cur ++ [w])) ≤ maxW then
      greedyAux cw maxW ws (cur ++ [w])
    else
      cur :: greedyAux cw maxW ws [w]

/-- Modelled from the spec: greedy wrap of a word list (see `greedyAux`). -/
def wrapWords (cw : Char → ℤ) (maxW : ℤ) : List String → List (List String)
  | [] => []
  | w :: ws => greedyAux cw maxW ws [w]

/-- Modelled from the spec: doc.splitTextToSize on a string, via its
space-separated words. -/
def splitTextToSize (cw : Char → ℤ) (maxW : ℤ) (s : String) : List String :=
  (wrapWords cw maxW (s.splitOn " ")).map (fun g => " ".intercalate g)

theorem greedyAux_ne_nil (cw : Char → ℤ) (maxW : ℤ) : ∀ (ws cur : List String),
    greedyAux cw maxW ws cur ≠ []
  | [], cur => by simp [greedyAux]
  | w :: ws, cur => by
    unfold greedyAux
    split
    · exact greedyAux_ne_nil cw maxW ws (cur ++ [w])
    · simp

theorem greedyAux_flatten (cw : Char → ℤ) (maxW : ℤ) : ∀ (ws cur : List String),
    (greedyAux cw maxW ws cur).flatten = cur ++ ws
  | [], cur => by simp [greedyAux]
  | w :: ws, cur => by
    unfold greedyAux
    split
    · rw [greedyAux_flatten cw maxW ws (cur ++ [w])]
      simp
    · rw [List.flatten_cons, greedyAux_flatten cw maxW ws [w]]
      simp

theorem greedyAux_width (cw : Char → ℤ) (maxW : ℤ) : ∀ (ws cur : List String),
    strWidth cw (" ".intercalate cur) ≤ maxW →
    (∀ w ∈ ws, strWidth cw w ≤ maxW) →
    ∀ g ∈ greedyAux cw maxW ws cur, strWidth cw (" ".intercalate g) ≤ maxW
  | [], cur, hcur, _, g, hg => by
    simp [greedyAux] at hg
    subst hg
    exact hcur
  | w :: ws, cur, hcur, hws, g, hg => by
    unfold greedyAux at hg
    split at hg
    case isTrue h =>
      exact greedyAux_width cw maxW ws (cur ++ [w]) h
        (fun x hx => hws x (List.mem_cons_of_mem w hx)) g hg
    case isFalse h =>
      rcases List.mem_cons.1 hg with rfl | hg2
      · exact hcur
      · refine greedyAux_width cw maxW ws [w] ?_
          (fun x hx => hws x (List.mem_cons_of_mem w hx)) g hg2
        exact hws w (List.mem_cons_self w ws)

theorem greedyAux_single (cw : Char → ℤ) (maxW : ℤ) : ∀ (ws cur : List String) (g : List String),
    strWidth cw (" ".intercalate cur) ≤ maxW →
    greedyAux cw maxW ws cur = [g] →
    strWidth cw (" ".intercalate (cur ++ ws)) ≤ maxW
  | [], cur, g, hcur, _ => by simpa using hcur
  | w :: ws, cur, g, hcur, hg => by
    unfold greedyAux at hg
    split at hg
    case isTrue h =>
      have hrec := greedyAux_single cw maxW ws (cur ++ [w]) g h hg
      simpa [List.append_assoc] using hrec
    case isFalse h =>
      exfalso
      injection hg with h1 h2
      exact greedyAux_ne_nil cw maxW ws [w] h2

/-- Claim C6: under the spec-modelled text-measurement facility, a content
string wider than the printable width whose individual words each fit
wraps into at least two lines; each produced line fits the printable width;
the lines carry exactly the original words in order (nothing dropped or
duplicated); and the renderer subjects each wrapped line to the page-break
drawing step individually, emitting one bulleted draw per wrapped line.
The string is represented by its space-separated word list `ws`. -/
theorem resume_c6_word_wrap (cw : Char → ℤ) (ws : List String)
    (hwords : ∀ w ∈ ws, strWidth cw w ≤ printableWidth)
    (hwide : printableWidth < strWidth cw (" ".intercalate ws)) :
    2 ≤ (wrapWords cw printableWidth ws).length ∧
    (wrapWords cw printableWidth ws).flatten = ws ∧
    (∀ g ∈ wrapWords cw printableWidth ws,
      strWidth cw (" ".intercalate g) ≤ printableWidth) ∧
    (∀ s : RState,
      (drawLines s ((wrapWords cw printableWidth ws).map
        (fun g => " ".intercalate g))).2.map TextDraw.text =
        (wrapWords cw printableWidth ws).map (fun g => "â€¢ " ++ " ".intercalate g)) := by
  cases ws with
  | nil =>
    exfalso
    have h0 : strWidth cw (" ".intercalate ([] : List String)) = 0 := rfl
    rw [h0] at hwide
    exact absurd hwide (by decide)
  | cons w ws =>
    have hwrap : wrapWords cw printableWidth (w :: ws) = greedyAux cw printableWidth ws [w] := rfl
    have hcur : strWidth cw (" ".intercalate [w]) ≤ printableWidth :=
      hwords w (List.mem_cons_self w ws)
    refine ⟨?_, ?_, ?_, ?_⟩
    · rw [hwrap]
      rcases hlen : greedyAux cw printableWidth ws [w] with _ | ⟨g, rest⟩
      · exact absurd hlen (greedyAux_ne_nil cw printableWidth ws [w])
      · rcases rest with _ | ⟨g2, rest2⟩
        · exfalso
          have hone := greedyAux_single cw printableWidth ws [w] g hcur hlen
          rw [show ([w] ++ ws : List String) = w :: ws from rfl] at hone
          exact absurd hwide (not_lt.mpr hone)
        · simp
    · rw [hwrap, greedyAux_flatten cw printableWidth ws [w]]
      rfl
    · intro g hg
      rw [hwrap] at hg
      exact greedyAux_width cw printableWidth ws [w] hcur
        (fun x hx => hwords x (List.mem_cons_of_mem w hx)) g hg
    · intro s
      rw [drawLines_texts, List.map_map]
      rfl

theorem resume_c6_word_wrap_witness :
    2 ≤ (wrapWords (fun _ => 4000000) printableWidth ["aa", "bb", "cc"]).length :=
  (resume_c6_word_wrap (fun _ => 4000000) ["aa", "bb", "cc"] (by decide) (by decide)).1

